import Mathlib

/-!
Verification of the `espoll` package (conditional retry executor for
Elasticsearch requests, query-DSL builders, condition combinators).

The Go code is shallowly embedded: the retry loop of `Client.Do` becomes a
fuel-indexed step function over an abstract environment that records, per
attempt, what the transport returns; durations are modelled as integer
nanosecond counts (Go `time.Duration`), and the timer/ticker select is
modelled with discrete time where attempt bodies are instantaneous, the
deadline timer is armed at time 0 and the poll ticker starts after the first
failed condition check, so the tick preceding attempt `n+1` is due at time
`n * interval` and the deadline wins the select exactly when
`timeout < n * interval`.
-/

namespace Espoll

/-- Model of `esapi.Response` at the boundary the executor uses: a status
code, the status classification reported by `IsError` (non-2xx), the body
bytes (as a string), and the rendering produced by the response's `String`
method (status line plus raw body text), which `Client.Do` stores in the
structured error's message. -/
structure Response where
  statusCode : Nat
  isError : Bool
  body : String
  stringRep : String
deriving DecidableEq

/-- `ConditionFunc` evaluates the `esapi.Response` (query.go). -/
def ConditionFunc : Type := Response → Bool

/-- The `requestOptions` struct of query.go: timeout and poll interval in
nanoseconds (`time.Duration`), and an optional return condition. -/
structure requestOptions where
  timeout : Int
  interval : Int
  cond : Option ConditionFunc

/-- `RequestOption` modifies certain parameters for an esapi.Request. -/
def RequestOption : Type := requestOptions → requestOptions

/-- The defaults installed at the top of `Client.Do`: one minute timeout
(60e9 ns) and 100ms poll interval (100e6 ns), no condition. -/
def defaultRequestOptions : requestOptions :=
  { timeout := 60000000000, interval := 100000000, cond := none }

/-- `WithTimeout` sets the timeout in an Elasticsearch request. -/
def WithTimeout (d : Int) : RequestOption :=
  fun opts => { opts with timeout := d }

/-- `WithInterval` sets the poll interval in an Elasticsearch request. -/
def WithInterval (d : Int) : RequestOption :=
  fun opts => { opts with interval := d }

/-- `WithCondition` runs the specified condition func. -/
def WithCondition (c : ConditionFunc) : RequestOption :=
  fun opts => { opts with cond := some c }

/-- The option-application loop of `Client.Do`:
`for _, opt := range opts { opt(&requestOptions) }` over the defaults. -/
def applyOpts (opts : List RequestOption) : requestOptions :=
  opts.foldl (fun acc f => f acc) defaultRequestOptions

/-- What one attempt's interaction with the (possibly wrapped) transport
does: either `req.Do` returns an error, or it returns a response together
with the outcome of `io.ReadAll` on that response's body (`none` = the body
reads cleanly; the bytes read are `resp.body`). -/
inductive AttemptStep where
  | fail (msg : String)
  | respond (resp : Response) (readErr : Option String)
deriving DecidableEq

/-- The `Error` struct of query.go: a structured application-level error
carrying the status code and `resp.String()` as message. -/
structure Error where
  StatusCode : Nat
  Message : String
deriving DecidableEq

/-- The error values `Client.Do` can return, tagged by provenance:
a transport error from `req.Do` (surfaced unmodified), the structured
`Error` for an error response, an `io.ReadAll` failure, a `json.Unmarshal`
failure, and `context.DeadlineExceeded`. -/
inductive GoError where
  | transport (msg : String)
  | es (e : Error)
  | readFail (msg : String)
  | decodeFail (msg : String)
  | deadlineExceeded
deriving DecidableEq

/-- Observable outcome of a terminated `Client.Do` call: a successful
response with the decoded output value (mirroring `out` after
`json.Unmarshal`) or an error return `(nil, err)`, or a runtime panic
(`time.NewTicker` with non-positive interval). `attempts` counts how many
times the request was given to the transport. -/
inductive DoResult (Out : Type) where
  | ok (resp : Response) (decoded : Option Out) (attempts : Nat)
  | fail (e : GoError) (attempts : Nat)
  | panicked (msg : String) (attempts : Nat)
deriving DecidableEq

/-- The `out != nil` / `json.Unmarshal(body, out)` step of `Client.Do`:
`dec = none` models a nil `out` (no decoding); otherwise the caller's
destination shape is modelled by a decode function on the body bytes. -/
def decodeOut {Out : Type} (dec : Option (String → Except String Out))
    (body : String) : Except String (Option Out) :=
  match dec with
  | none => Except.ok none
  | some f => (f body).map some

/-- The `for` loop of `Client.Do` (query.go lines 176-212), fuel-indexed.
`ticker` models `tickerC != nil`, `n` is the number of attempts completed.
The deadline select fires iff the timer was armed (`cond` present and
`timeout > 0`) and the timer (due at absolute time `timeout`) beats the next
tick (due at `n * interval`). A `none` result means the loop is still
running after `fuel` iterations. -/
def doLoop {Out : Type} (env : Nat → AttemptStep)
    (dec : Option (String → Except String Out)) (opts : requestOptions) :
    Bool → Nat → Nat → Option (DoResult Out)
  | _, _, 0 => none
  | ticker, n, fuel + 1 =>
    if ticker = true ∧ opts.cond.isSome = true ∧ 0 < opts.timeout ∧
        opts.timeout < (n : Int) * opts.interval then
      some (DoResult.fail GoError.deadlineExceeded n)
    else
      match env n with
      | AttemptStep.fail e => some (DoResult.fail (GoError.transport e) (n + 1))
      | AttemptStep.respond resp readErr =>
        if resp.isError then
          some (DoResult.fail
            (GoError.es { StatusCode := resp.statusCode, Message := resp.stringRep }) (n + 1))
        else
          match readErr with
          | some e => some (DoResult.fail (GoError.readFail e) (n + 1))
          | none =>
            match decodeOut dec resp.body with
            | Except.error e => some (DoResult.fail (GoError.decodeFail e) (n + 1))
            | Except.ok d =>
              match opts.cond with
              | none => some (DoResult.ok resp d (n + 1))
              | some c =>
                if c resp then some (DoResult.ok resp d (n + 1))
                else if ticker then doLoop env dec opts true (n + 1) fuel
                else if opts.interval ≤ 0 then
                  some (DoResult.panicked "non-positive interval for NewTicker" (n + 1))
                else doLoop env dec opts true (n + 1) fuel

/-- `Client.Do` run against resolved options: the loop starts with no ticker
and zero attempts completed. -/
def doRun {Out : Type} (env : Nat → AttemptStep)
    (dec : Option (String → Except String Out)) (opts : requestOptions)
    (fuel : Nat) : Option (DoResult Out) :=
  doLoop env dec opts false 0 fuel

/-- `Client.Do` as called by users: defaults, then the option list, then the
retry loop. -/
def Do {Out : Type} (env : Nat → AttemptStep)
    (dec : Option (String → Except String Out)) (opts : List RequestOption)
    (fuel : Nat) : Option (DoResult Out) :=
  doRun env dec (applyOpts opts) fuel

/-- Number of transport attempts recorded in a terminal result. -/
def resultAttempts {Out : Type} : DoResult Out → Nat
  | DoResult.ok _ _ n => n
  | DoResult.fail _ n => n
  | DoResult.panicked _ n => n

/-- The loop body of `AllCondition` (query.go lines 254-261): walk the
supplied conditions in order and return false at the first one that returns
false, true when none does. -/
def allCondLoop : List ConditionFunc → Response → Bool
  | [], _ => true
  | c :: rest, resp => if !(c resp) then false else allCondLoop rest resp

/-- `AllCondition` returns a ConditionFunc that returns true as long as none
of the supplied conditions returns false. -/
def AllCondition (conds : List ConditionFunc) : ConditionFunc :=
  fun resp => allCondLoop conds resp

/-- Instrumentation of the same loop: how many of the supplied conditions
get invoked on a given response (each iteration of the `for` loop calls
`cond(resp)` exactly once before deciding whether to stop). -/
def allCondEvalCount : List ConditionFunc → Response → Nat
  | [], _ => 0
  | c :: rest, resp => if !(c resp) then 1 else 1 + allCondEvalCount rest resp

/-- JSON documents, the codomain of the query-fragment builders. Numbers are
modelled as rationals, a superset of the exactly-representable float64
values that Go `encoding/json` serializes. -/
inductive Json where
  | null
  | bool (b : Bool)
  | str (s : String)
  | num (v : Rat)
  | arr (xs : List Json)
  | obj (fields : List (String × Json))

/-- Lower-case hexadecimal digit, as used by Go `encoding/json` escapes. -/
def hexDigit (n : Nat) : Char :=
  if n < 10 then Char.ofNat (48 + n) else Char.ofNat (87 + n)

/-- Per-character escaping performed by Go `encoding/json` on string values:
quote, backslash and the common control characters use two-character
escapes, other control characters a `\u00xx` escape, and (HTML-safe mode,
the `json.Marshal` default) `<`, `>`, `&`, U+2028 and U+2029 are escaped. -/
def escapeChar (c : Char) : String :=
  if c = '"' then "\\\""
  else if c = '\\' then "\\\\"
  else if c = '\n' then "\\n"
  else if c = '\r' then "\\r"
  else if c = '\t' then "\\t"
  else if c = '<' ∨ c = '>' ∨ c = '&' ∨ c.toNat < 32 then
    "\\u00" ++ String.mk [hexDigit (c.toNat / 16), hexDigit (c.toNat % 16)]
  else if c.toNat = 8232 ∨ c.toNat = 8233 then
    "\\u202" ++ String.mk [hexDigit (c.toNat % 16)]
  else String.singleton c

/-- Rendering of a JSON string literal. -/
def renderString (s : String) : String :=
  "\"" ++ String.join (s.toList.map escapeChar) ++ "\""

/-- Least `k` with `d ∣ 10^k`, when one exists below the search bound; every
float64 value is a dyadic rational, whose denominator always divides such a
power of ten. -/
def pow10Exp (d : Nat) : Option Nat :=
  (List.range 1201).find? (fun k => 10 ^ k % d == 0)

/-- Left-pad a digit string with zeros to the given length. -/
def padZeros (s : String) (n : Nat) : String :=
  String.mk (List.replicate (n - s.length) '0') ++ s

/-- Decimal rendering of a JSON number: integers render without a decimal
point; a non-integral dyadic rational renders with its (finite) decimal
expansion using the minimal exponent, which matches Go's shortest-form float
output for exactly-representable values. -/
def renderNum (v : Rat) : String :=
  if v.den = 1 then toString v.num
  else
    match pow10Exp v.den with
    | some k =>
      let scaled : Nat := v.num.natAbs * ((10 ^ k) / v.den)
      let digits := padZeros (toString scaled) (k + 1)
      (if v.num < 0 then "-" else "") ++ digits.dropRight k ++ "." ++ digits.takeRight k
    | none => toString v.num ++ "/" ++ toString v.den

mutual

/-- Compact JSON serialization, as produced by Go `json.Marshal`: no extra
whitespace, object fields in the order of the field list. -/
def Json.render : Json → String
  | Json.null => "null"
  | Json.bool b => if b then "true" else "false"
  | Json.str s => renderString s
  | Json.num v => renderNum v
  | Json.arr xs => "[" ++ renderElems xs ++ "]"
  | Json.obj fs => "\x7b" ++ renderFields fs ++ "\x7d"

/-- Comma-separated rendering of array elements. -/
def renderElems : List Json → String
  | [] => ""
  | [x] => Json.render x
  | x :: y :: rest => Json.render x ++ "," ++ renderElems (y :: rest)

/-- Comma-separated rendering of object fields. -/
def renderFields : List (String × Json) → String
  | [] => ""
  | [(k, v)] => renderString k ++ ":" ++ Json.render v
  | (k, v) :: p :: rest =>
    renderString k ++ ":" ++ Json.render v ++ "," ++ renderFields (p :: rest)

end

/-- Insert a field into a key-sorted field list (Go `encoding/json`
serializes map keys in sorted order). -/
def insertField (p : String × Json) : List (String × Json) → List (String × Json)
  | [] => [p]
  | q :: rest => if p.1 ≤ q.1 then p :: q :: rest else q :: insertField p rest

/-- Sort an object's fields by key, modelling Go's sorted map-key output. -/
def sortFields : List (String × Json) → List (String × Json)
  | [] => []
  | p :: rest => insertField p (sortFields rest)

/-- `encodeQueryJSON` of query.go: wrap the kind-specific value in a
single-key object named after the query kind. -/
def encodeQueryJSON (k : String) (v : Json) : Json := Json.obj [(k, v)]

/-- The `BoolQuery` builder struct of query.go. -/
structure BoolQuery where
  Filter : List Json
  Must : List Json
  MustNot : List Json
  Should : List Json
  MinimumShouldMatch : Int
  Boost : Rat

/-- `BoolQuery.MarshalJSON` before byte-rendering: the inner struct carries
`omitempty` json tags on every field, so empty slices and zero numbers are
omitted; Go struct fields serialize in declaration order. -/
def BoolQuery.toJson (q : BoolQuery) : Json :=
  encodeQueryJSON "bool" (Json.obj (
    (if q.Filter.isEmpty then [] else [("filter", Json.arr q.Filter)]) ++
    (if q.Must.isEmpty then [] else [("must", Json.arr q.Must)]) ++
    (if q.MustNot.isEmpty then [] else [("must_not", Json.arr q.MustNot)]) ++
    (if q.Should.isEmpty then [] else [("should", Json.arr q.Should)]) ++
    (if q.MinimumShouldMatch = 0 then []
     else [("minimum_should_match", Json.num (q.MinimumShouldMatch : Rat))]) ++
    (if q.Boost = 0 then [] else [("boost", Json.num q.Boost)])))

/-- `BoolQuery.MarshalJSON`, rendered to bytes. -/
def BoolQuery.MarshalJSON (q : BoolQuery) : String := q.toJson.render

/-- The `ExistsQuery` builder struct of query.go. -/
structure ExistsQuery where
  Field : String

/-- `ExistsQuery.MarshalJSON` before byte-rendering: a single-entry map. -/
def ExistsQuery.toJson (q : ExistsQuery) : Json :=
  encodeQueryJSON "exists" (Json.obj [("field", Json.str q.Field)])

/-- `ExistsQuery.MarshalJSON`, rendered to bytes. -/
def ExistsQuery.MarshalJSON (q : ExistsQuery) : String := q.toJson.render

/-- The `TermQuery` builder struct of query.go. -/
structure TermQuery where
  Field : String
  Value : Json
  Boost : Rat

/-- `TermQuery.MarshalJSON` before byte-rendering: a single-entry map from
the field name to the inner `termQuery` struct, whose `value` field has no
`omitempty` and whose `boost` field does. -/
def TermQuery.toJson (q : TermQuery) : Json :=
  encodeQueryJSON "term" (Json.obj [(q.Field,
    Json.obj ([("value", q.Value)] ++
      (if q.Boost = 0 then [] else [("boost", Json.num q.Boost)])))])

/-- `TermQuery.MarshalJSON`, rendered to bytes. -/
def TermQuery.MarshalJSON (q : TermQuery) : String := q.toJson.render

/-- The `TermsQuery` builder struct of query.go. -/
structure TermsQuery where
  Field : String
  Values : List Json
  Boost : Rat

/-- `TermsQuery.MarshalJSON` before byte-rendering: a map holding the field
name bound to the values and, only when non-zero, a `boost` key; Go
serializes map keys sorted. -/
def TermsQuery.toJson (q : TermsQuery) : Json :=
  encodeQueryJSON "terms" (Json.obj (sortFields (
    [(q.Field, Json.arr q.Values)] ++
    (if q.Boost = 0 then [] else [("boost", Json.num q.Boost)]))))

/-- `TermsQuery.MarshalJSON`, rendered to bytes. -/
def TermsQuery.MarshalJSON (q : TermsQuery) : String := q.toJson.render

/-- The `MatchPhraseQuery` builder struct of query.go. -/
structure MatchPhraseQuery where
  Field : String
  Value : Json

/-- `MatchPhraseQuery.MarshalJSON` before byte-rendering. -/
def MatchPhraseQuery.toJson (q : MatchPhraseQuery) : Json :=
  encodeQueryJSON "match_phrase" (Json.obj [(q.Field, q.Value)])

/-- `MatchPhraseQuery.MarshalJSON`, rendered to bytes. -/
def MatchPhraseQuery.MarshalJSON (q : MatchPhraseQuery) : String := q.toJson.render

/-- Modelled from the spec: the `bodyRepeater` transport wrapper that
`Client.Do` installs when a condition is present (its defining source file
is not under src; only its installation site in `Client.Do` is). Spec
section 4.2: the wrapper's state is the captured body; on the first send the
entire outgoing body (if any) is read and buffered before delegating, and a
fresh stream over the buffered bytes is reinstated on the request; on every
subsequent send re-buffering is skipped and a fresh stream over the
already-captured bytes is installed before delegating. The first component
of the result is the body delivered to the underlying transport on this
send, the second the wrapper's new captured state. -/
def bodyRepeaterSend (captured : Option (List Nat)) (reqBody : Option (List Nat)) :
    Option (List Nat) × Option (List Nat) :=
  match captured with
  | none => (reqBody, reqBody)
  | some b => (some b, some b)

/-- The sequence of bodies delivered to the underlying transport over `n`
successive sends of the same logical request through one wrapper instance
starting from the given captured state. -/
def bodyRepeaterDeliveries (captured : Option (List Nat)) (reqBody : Option (List Nat)) :
    Nat → List (Option (List Nat))
  | 0 => []
  | n + 1 =>
    (bodyRepeaterSend captured reqBody).1 ::
      bodyRepeaterDeliveries (bodyRepeaterSend captured reqBody).2 reqBody n

/-- A plain 200 response with empty body, used to instantiate theorems. -/
def respOk : Response :=
  { statusCode := 200, isError := false, body := "", stringRep := "" }

/-- A 102 (processing, non-error) response, used to instantiate theorems. -/
def respSlow : Response :=
  { statusCode := 102, isError := false, body := "", stringRep := "" }

/-- A 500 error response, used to instantiate theorems. -/
def respErr : Response :=
  { statusCode := 500, isError := true, body := "oops",
    stringRep := "[500 Internal Server Error] oops" }

/-- A 200 response with a non-empty body, used to instantiate theorems. -/
def respHello : Response :=
  { statusCode := 200, isError := false, body := "hello", stringRep := "" }

/-- An environment where every attempt yields the plain 200 response. -/
def envOk : Nat → AttemptStep := fun _ => AttemptStep.respond respOk none

/-- An environment where the transport fails on every attempt. -/
def envRefused : Nat → AttemptStep := fun _ => AttemptStep.fail "connection refused"

/-- An environment where every attempt yields the 500 error response. -/
def envErr : Nat → AttemptStep := fun _ => AttemptStep.respond respErr none

/-- An environment where every attempt yields the response with a body. -/
def envHello : Nat → AttemptStep := fun _ => AttemptStep.respond respHello none

/-- A condition that never holds. -/
def condNever : ConditionFunc := fun _ => false

/-- A condition that holds exactly on status-200 responses. -/
def cond200 : ConditionFunc := fun r => r.statusCode == 200

/-- Attempt 1 yields the 102 response, all later attempts the 200 one. -/
def respSeq : Nat → Response := fun i => if i = 0 then respSlow else respOk

/-- The environment built over `respSeq`, all attempts succeeding. -/
def envSeq : Nat → AttemptStep := fun i => AttemptStep.respond (respSeq i) none

/-- Default options plus the status-200 condition. -/
def optsCond200 : requestOptions :=
  { timeout := 60000000000, interval := 100000000, cond := some cond200 }

/-- A never-true condition with a timeout of one time unit and an interval of
one time unit, so the deadline fires during the second wait. -/
def optsTight : requestOptions :=
  { timeout := 1, interval := 1, cond := some condNever }

/-- A never-true condition with a zero timeout: no deadline timer is armed. -/
def optsNoTimeout : requestOptions :=
  { timeout := 0, interval := 100000000, cond := some condNever }

/-- A never-true condition with a zero poll interval. -/
def optsZeroInterval : requestOptions :=
  { timeout := 60000000000, interval := 0, cond := some condNever }

/-- A decoder that copies the body verbatim into the output destination. -/
def decEcho : Option (String → Except String String) :=
  some (fun s => Except.ok s)

/-- Attempt 1 yields the clean 102 response, every later attempt a transport
failure: an error arising mid-polling. -/
def envFailAt1 : Nat → AttemptStep :=
  fun i => if i = 0 then AttemptStep.respond respSlow none
           else AttemptStep.fail "connection refused"

/-- Attempt 1 yields the clean 102 response, every later attempt the 500
error response: an application error arising mid-polling. -/
def envErrAt1 : Nat → AttemptStep :=
  fun i => if i = 0 then AttemptStep.respond respSlow none
           else AttemptStep.respond respErr none

/-- Inversion for deadline termination: a deadline-exceeded return can only
happen with a condition installed, a positive timeout, a deadline earlier
than the tick due after attempt `m`, at least the current attempt count, and
never in an iteration whose wait has not started. -/
lemma doLoop_deadline_inv {Out : Type} (env : Nat → AttemptStep)
    (dec : Option (String → Except String Out)) (opts : requestOptions) (m : Nat) :
    ∀ fuel j ticker, doLoop env dec opts ticker j fuel =
        some (DoResult.fail GoError.deadlineExceeded m) →
      opts.cond.isSome = true ∧ 0 < opts.timeout ∧
        opts.timeout < (m : Int) * opts.interval ∧ j ≤ m ∧ (ticker = false → j < m) := by
  intro fuel
  induction fuel with
  | zero => intro j ticker h; simp [doLoop] at h
  | succ fuel ih =>
    intro j ticker h
    simp only [doLoop] at h
    split at h
    · rename_i hguard
      simp only [Option.some.injEq, DoResult.fail.injEq] at h
      obtain ⟨-, hm⟩ := h
      subst hm
      exact ⟨hguard.2.1, hguard.2.2.1, hguard.2.2.2, le_refl _,
        fun hfalse => by rw [hguard.1] at hfalse; cases hfalse⟩
    · split at h
      · simp at h
      · split at h
        · simp at h
        · split at h
          · simp at h
          · split at h
            · simp at h
            · split at h
              · simp at h
              · split at h
                · simp at h
                · split at h
                  · obtain ⟨a, b, c, d, -⟩ := ih (j + 1) true h
                    exact ⟨a, b, c, by omega, fun _ => by omega⟩
                  · split at h
                    · simp at h
                    · obtain ⟨a, b, c, d, -⟩ := ih (j + 1) true h
                      exact ⟨a, b, c, by omega, fun _ => by omega⟩

/-- Inversion for successful termination: the decoded output returned with a
successful response is exactly the decode of that response's body. -/
lemma doLoop_ok_inv {Out : Type} (env : Nat → AttemptStep)
    (dec : Option (String → Except String Out)) (opts : requestOptions)
    (r : Response) (d : Option Out) (m : Nat) :
    ∀ fuel j ticker, doLoop env dec opts ticker j fuel = some (DoResult.ok r d m) →
      decodeOut dec r.body = Except.ok d := by
  intro fuel
  induction fuel with
  | zero => intro j ticker h; simp [doLoop] at h
  | succ fuel ih =>
    intro j ticker h
    simp only [doLoop] at h
    split at h
    · simp at h
    · split at h
      · simp at h
      · split at h
        · simp at h
        · split at h
          · simp at h
          · split at h
            · simp at h
            · rename_i resp readErr henv hne hre d2 hdec
              split at h
              · simp only [Option.some.injEq, DoResult.ok.injEq] at h
                obtain ⟨h1, h2, -⟩ := h
                subst h1; subst h2
                exact hdec
              · split at h
                · simp only [Option.some.injEq, DoResult.ok.injEq] at h
                  obtain ⟨h1, h2, -⟩ := h
                  subst h1; subst h2
                  exact hdec
                · split at h
                  · exact ih _ _ h
                  · split at h
                    · simp at h
                    · exact ih _ _ h

/-- Inversion for a panic: `time.NewTicker` is only reached with a condition
installed, and panics only when the poll interval is not positive. -/
lemma doLoop_panic_inv {Out : Type} (env : Nat → AttemptStep)
    (dec : Option (String → Except String Out)) (opts : requestOptions)
    (msg : String) (m : Nat) :
    ∀ fuel j ticker, doLoop env dec opts ticker j fuel =
        some (DoResult.panicked msg m) →
      opts.interval ≤ 0 ∧ opts.cond.isSome = true := by
  intro fuel
  induction fuel with
  | zero => intro j ticker h; simp [doLoop] at h
  | succ fuel ih =>
    intro j ticker h
    simp only [doLoop] at h
    split at h
    · simp at h
    · split at h
      · simp at h
      · split at h
        · simp at h
        · split at h
          · simp at h
          · split at h
            · simp at h
            · split at h
              · simp at h
              · rename_i c hcond
                split at h
                · simp at h
                · split at h
                  · exact ih _ _ h
                  · split at h
                    · rename_i hInt
                      exact ⟨hInt, by rw [hcond]; rfl⟩
                    · exact ih _ _ h

/-- With a condition that keeps failing on clean responses, a non-positive
timeout (no deadline timer) and a positive interval, the loop never
terminates, whatever the fuel. -/
lemma doLoop_no_timeout_unbounded {Out : Type} (env : Nat → AttemptStep)
    (dec : Option (String → Except String Out)) (opts : requestOptions)
    (c : ConditionFunc) (hc : opts.cond = some c) (ht : opts.timeout ≤ 0)
    (hi : 0 < opts.interval)
    (henv : ∀ i, ∃ r, env i = AttemptStep.respond r none ∧ r.isError = false ∧
      c r = false ∧ ∃ dv, decodeOut dec r.body = Except.ok dv) :
    ∀ fuel j ticker, doLoop env dec opts ticker j fuel = none := by
  intro fuel
  induction fuel with
  | zero => intro j ticker; rfl
  | succ fuel ih =>
    intro j ticker
    obtain ⟨r, hr, he, hcr, dv, hdv⟩ := henv j
    simp only [doLoop]
    rw [if_neg (by rintro ⟨-, -, h1, -⟩; omega), hr]
    simp only [he, Bool.false_eq_true, if_false, hdv, hc, hcr]
    cases ticker
    · rw [if_neg (by simp), if_neg (by omega)]
      exact ih (j + 1) true
    · rw [if_pos rfl]
      exact ih (j + 1) true

/-- If the condition first holds at attempt `K` over otherwise clean
attempts, and the deadline timer is unarmed or due after the `(K-1)`-th
tick, the loop reaches attempt `K` and returns its response, from any state
at most `K - 1` attempts in. -/
lemma doLoop_success_reaches {Out : Type} (env : Nat → AttemptStep)
    (dec : Option (String → Except String Out)) (opts : requestOptions)
    (c : ConditionFunc) (resp : Nat → Response) (d : Nat → Option Out) (K : Nat)
    (hc : opts.cond = some c) (hK : 1 ≤ K)
    (ht : opts.timeout ≤ 0 ∨ ((K : Int) - 1) * opts.interval < opts.timeout)
    (hi : 0 < opts.interval)
    (henv : ∀ i, i < K → env i = AttemptStep.respond (resp i) none)
    (hok : ∀ i, i < K → (resp i).isError = false)
    (hdec : ∀ i, i < K → decodeOut dec (resp i).body = Except.ok (d i))
    (hcf : ∀ i, i + 1 < K → c (resp i) = false)
    (hct : c (resp (K - 1)) = true) :
    ∀ fuel j ticker, j < K → K - j ≤ fuel →
      doLoop env dec opts ticker j fuel =
        some (DoResult.ok (resp (K - 1)) (d (K - 1)) K) := by
  intro fuel
  induction fuel with
  | zero => intro j ticker hj hle; omega
  | succ fuel ih =>
    intro j ticker hj hle
    simp only [doLoop]
    rw [if_neg ?guard, henv j hj]
    case guard =>
      rintro ⟨-, -, h1, h2⟩
      rcases ht with ht | ht
      · omega
      · have hj1 : (j : Int) ≤ (K : Int) - 1 := by
          have hjk : (j : Int) < (K : Int) := by exact_mod_cast hj
          omega
        have hmul : (j : Int) * opts.interval ≤ ((K : Int) - 1) * opts.interval :=
          mul_le_mul_of_nonneg_right hj1 (by omega)
        linarith
    simp only [hok j hj, Bool.false_eq_true, if_false, hdec j hj, hc]
    by_cases hjK : j = K - 1
    · subst hjK
      simp only [hct, if_true]
      rw [Nat.sub_add_cancel hK]
    · have hcf2 : c (resp j) = false := hcf j (by omega)
      simp only [hcf2, Bool.false_eq_true, if_false]
      cases ticker
      · rw [if_neg (by simp), if_neg (by omega)]
        exact ih (j + 1) true (by omega) (by omega)
      · rw [if_pos rfl]
        exact ih (j + 1) true (by omega) (by omega)

/-- If attempts before `k` are clean with the condition false, the deadline
is unarmed or no earlier than the tick due after attempt `k`, and attempt `k`
fails at the transport, the loop terminates with that error unmodified and
exactly `k + 1` attempts, from any state at most `k` attempts in. -/
lemma doLoop_transport_error_reaches {Out : Type} (env : Nat → AttemptStep)
    (dec : Option (String → Except String Out)) (opts : requestOptions)
    (c : ConditionFunc) (resp : Nat → Response) (k : Nat) (e : String)
    (hc : opts.cond = some c)
    (ht : opts.timeout ≤ 0 ∨ (k : Int) * opts.interval ≤ opts.timeout)
    (hi : 0 < opts.interval)
    (henv : ∀ i, i < k → env i = AttemptStep.respond (resp i) none)
    (hok : ∀ i, i < k → (resp i).isError = false)
    (hdec : ∀ i, i < k → ∃ dv, decodeOut dec (resp i).body = Except.ok dv)
    (hcf : ∀ i, i < k → c (resp i) = false)
    (he : env k = AttemptStep.fail e) :
    ∀ fuel j ticker, j ≤ k → k - j < fuel →
      doLoop env dec opts ticker j fuel =
        some (DoResult.fail (GoError.transport e) (k + 1)) := by
  intro fuel
  induction fuel with
  | zero => intro j ticker hj hle; omega
  | succ fuel ih =>
    intro j ticker hj hle
    simp only [doLoop]
    rw [if_neg ?guard]
    case guard =>
      rintro ⟨-, -, h1, h2⟩
      rcases ht with ht | ht
      · omega
      · have hj1 : (j : Int) ≤ (k : Int) := by exact_mod_cast hj
        have hmul : (j : Int) * opts.interval ≤ (k : Int) * opts.interval :=
          mul_le_mul_of_nonneg_right hj1 (by omega)
        linarith
    by_cases hjk : j = k
    · subst hjk
      rw [he]
    · obtain ⟨dv, hdv⟩ := hdec j (by omega)
      rw [henv j (by omega)]
      simp only [hok j (by omega), Bool.false_eq_true, if_false, hdv, hc,
        hcf j (by omega)]
      cases ticker
      · rw [if_neg (by simp), if_neg (by omega)]
        exact ih (j + 1) true (by omega) (by omega)
      · rw [if_pos rfl]
        exact ih (j + 1) true (by omega) (by omega)

/-- If attempts before `k` are clean with the condition false, the deadline
is unarmed or no earlier than the tick due after attempt `k`, and attempt `k`
yields an error-status response, the loop terminates with the structured
`Error` for that response and exactly `k + 1` attempts, from any state at
most `k` attempts in. -/
lemma doLoop_es_error_reaches {Out : Type} (env : Nat → AttemptStep)
    (dec : Option (String → Except String Out)) (opts : requestOptions)
    (c : ConditionFunc) (resp : Nat → Response) (k : Nat) (r : Response)
    (re : Option String)
    (hc : opts.cond = some c)
    (ht : opts.timeout ≤ 0 ∨ (k : Int) * opts.interval ≤ opts.timeout)
    (hi : 0 < opts.interval)
    (henv : ∀ i, i < k → env i = AttemptStep.respond (resp i) none)
    (hok : ∀ i, i < k → (resp i).isError = false)
    (hdec : ∀ i, i < k → ∃ dv, decodeOut dec (resp i).body = Except.ok dv)
    (hcf : ∀ i, i < k → c (resp i) = false)
    (he : env k = AttemptStep.respond r re) (hr : r.isError = true) :
    ∀ fuel j ticker, j ≤ k → k - j < fuel →
      doLoop env dec opts ticker j fuel = some (DoResult.fail
        (GoError.es { StatusCode := r.statusCode, Message := r.stringRep }) (k + 1)) := by
  intro fuel
  induction fuel with
  | zero => intro j ticker hj hle; omega
  | succ fuel ih =>
    intro j ticker hj hle
    simp only [doLoop]
    rw [if_neg ?guard]
    case guard =>
      rintro ⟨-, -, h1, h2⟩
      rcases ht with ht | ht
      · omega
      · have hj1 : (j : Int) ≤ (k : Int) := by exact_mod_cast hj
        have hmul : (j : Int) * opts.interval ≤ (k : Int) * opts.interval :=
          mul_le_mul_of_nonneg_right hj1 (by omega)
        linarith
    by_cases hjk : j = k
    · subst hjk
      rw [he]
      simp only [hr, if_true]
    · obtain ⟨dv, hdv⟩ := hdec j (by omega)
      rw [henv j (by omega)]
      simp only [hok j (by omega), Bool.false_eq_true, if_false, hdv, hc,
        hcf j (by omega)]
      cases ticker
      · rw [if_neg (by simp), if_neg (by omega)]
        exact ih (j + 1) true (by omega) (by omega)
      · rw [if_pos rfl]
        exact ih (j + 1) true (by omega) (by omega)

/-- The `AllCondition` loop computes the conjunction of all conditions. -/
lemma allCondLoop_all : ∀ (conds : List ConditionFunc) (r : Response),
    allCondLoop conds r = conds.all (fun c => c r) := by
  intro conds r
  induction conds with
  | nil => rfl
  | cons c rest ih =>
    simp only [allCondLoop, List.all_cons]
    rcases Bool.eq_false_or_eq_true (c r) with hcr | hcr
    · simp only [hcr, Bool.not_true, if_false]
      simpa using ih
    · simp [hcr]

/-- The `AllCondition` loop evaluates the leading all-true prefix plus, when
one exists, the first false condition, and nothing after it. -/
lemma allCondEvalCount_formula : ∀ (conds : List ConditionFunc) (r : Response),
    allCondEvalCount conds r =
      min conds.length ((conds.takeWhile (fun c => c r)).length + 1) := by
  intro conds r
  induction conds with
  | nil => rfl
  | cons c rest ih =>
    rcases Bool.eq_false_or_eq_true (c r) with hcr | hcr
    · have h1 : allCondEvalCount (c :: rest) r = 1 + allCondEvalCount rest r := by
        simp [allCondEvalCount, hcr]
      have h2 : List.takeWhile (fun c => c r) (c :: rest) =
          c :: List.takeWhile (fun c => c r) rest :=
        List.takeWhile_cons_of_pos (by simp [hcr])
      rw [h1, h2, ih]
      simp only [List.length_cons]
      generalize (List.takeWhile (fun c => c r) rest).length = t
      generalize rest.length = n
      clear h1 h2 ih hcr c rest r
      omega
    · have h1 : allCondEvalCount (c :: rest) r = 1 := by
        simp [allCondEvalCount, hcr]
      have h2 : List.takeWhile (fun c => c r) (c :: rest) = [] :=
        List.takeWhile_cons_of_neg (by simp [hcr])
      rw [h1, h2]
      simp only [List.length_cons, List.length_nil]
      generalize rest.length = n
      clear h1 h2 hcr ih c rest r
      omega

/-- Once the body is captured, every further send delivers exactly it. -/
lemma bodyRepeaterDeliveries_of_captured :
    ∀ (n : Nat) (b : List Nat) (reqBody : Option (List Nat)),
      bodyRepeaterDeliveries (some b) reqBody n = List.replicate n (some b) := by
  intro n
  induction n with
  | zero => intro b reqBody; rfl
  | succ n ih =>
    intro b reqBody
    simp [bodyRepeaterDeliveries, bodyRepeaterSend, ih, List.replicate_succ]

/-- C1: eventual success. If the configured condition first evaluates true on
the Kth attempt (K ≥ 1) over otherwise clean attempts, and the configured
timeout is large enough to allow K attempts at the configured interval
(strictly larger than `(K-1) * interval`, or non-positive so that no
deadline timer is armed at all), then `Do` returns success — the Kth
attempt's response together with the output decoded from it — after exactly
K attempts, no fewer and no more, for every sufficient fuel bound. -/
theorem c1_eventual_success {Out : Type} (env : Nat → AttemptStep)
    (dec : Option (String → Except String Out)) (opts : requestOptions)
    (c : ConditionFunc) (resp : Nat → Response) (d : Nat → Option Out) (K : Nat)
    (hc : opts.cond = some c) (hK : 1 ≤ K)
    (ht : opts.timeout ≤ 0 ∨ ((K : Int) - 1) * opts.interval < opts.timeout)
    (hi : 0 < opts.interval)
    (henv : ∀ i, i < K → env i = AttemptStep.respond (resp i) none)
    (hok : ∀ i, i < K → (resp i).isError = false)
    (hdec : ∀ i, i < K → decodeOut dec (resp i).body = Except.ok (d i))
    (hcf : ∀ i, i + 1 < K → c (resp i) = false)
    (hct : c (resp (K - 1)) = true)
    (fuel : Nat) (hfuel : K ≤ fuel) :
    doRun env dec opts fuel = some (DoResult.ok (resp (K - 1)) (d (K - 1)) K) :=
  doLoop_success_reaches env dec opts c resp d K hc hK ht hi henv hok hdec hcf
    hct fuel 0 false (by omega) (by omega)

/-- Witness for C1 at K = 2: the status-200 condition fails on the first
attempt (a 102 response) and holds on the second. -/
theorem c1_eventual_success_witness :
    doRun envSeq (none : Option (String → Except String Unit)) optsCond200 2 =
      some (DoResult.ok (respSeq 1) none 2) :=
  c1_eventual_success envSeq none optsCond200 cond200 respSeq (fun _ => none) 2
    rfl (by omega) (Or.inr (by decide)) (by decide)
    (fun i _ => rfl)
    (fun i _ => by
      by_cases h : i = 0
      · subst h; rfl
      · simp [respSeq, h, respOk])
    (fun i _ => rfl)
    (fun i hi2 => by
      have h : i = 0 := by omega
      subst h; rfl)
    rfl 2 (le_refl 2)

/-- C2: no-condition short-circuit. When the resolved options carry no
condition, `Do` terminates on the very first iteration with exactly one
attempt recorded, and its outcome is a function of the first attempt's
environment entry alone — two environments that agree on attempt 1 produce
the same result, so no retry ever occurs without a condition. -/
theorem c2_no_condition_single_attempt {Out : Type} (env env2 : Nat → AttemptStep)
    (dec : Option (String → Except String Out)) (opts : requestOptions)
    (fuel : Nat) (hc : opts.cond = none) (hf : 1 ≤ fuel) :
    (∃ res, doRun env dec opts fuel = some res ∧ resultAttempts res = 1) ∧
    (env2 0 = env 0 → doRun env2 dec opts fuel = doRun env dec opts fuel) := by
  obtain ⟨f, rfl⟩ : ∃ f, fuel = f + 1 := ⟨fuel - 1, by omega⟩
  constructor
  · unfold doRun
    simp only [doLoop]
    rw [if_neg (by simp)]
    cases h0 : env 0 with
    | fail e => exact ⟨_, rfl, rfl⟩
    | respond r re =>
      by_cases hr : r.isError = true
      · simp only [hr, if_true]
        exact ⟨_, rfl, rfl⟩
      · simp only [hr, if_false]
        cases re with
        | some e => exact ⟨_, rfl, rfl⟩
        | none =>
          cases hd : decodeOut dec r.body with
          | error e => exact ⟨_, rfl, rfl⟩
          | ok d => rw [hc]; exact ⟨_, rfl, rfl⟩
  · intro h02
    unfold doRun
    simp only [doLoop]
    rw [h02, hc]

/-- Witness for C2 on a clean single-attempt environment with the default
options, which carry no condition. -/
theorem c2_no_condition_single_attempt_witness :
    (∃ res, doRun envOk (none : Option (String → Except String Unit))
        defaultRequestOptions 1 = some res ∧ resultAttempts res = 1) ∧
    (envOk 0 = envOk 0 →
      doRun envOk (none : Option (String → Except String Unit))
          defaultRequestOptions 1 =
        doRun envOk none defaultRequestOptions 1) :=
  c2_no_condition_single_attempt envOk envOk none defaultRequestOptions 1 rfl
    (le_refl 1)

/-- C3: terminal errors are not retried, on every attempt. With a condition
and an ample timeout configured (the deadline unarmed or no earlier than the
tick due after attempt `k + 1`), if the loop reaches attempt `k + 1` through
a clean condition-false prefix and that attempt's transport call errors,
`Do` terminates immediately with that error unmodified and exactly `k + 1`
attempts — no further attempt occurs; and if that attempt's response has the
error status classification, `Do` terminates immediately with the structured
`Error` carrying the status code and the response's rendered text, again
with exactly `k + 1` attempts. Instantiating `k = 0` gives the
first-attempt case. -/
theorem c3_terminal_errors_not_retried {Out : Type} (env : Nat → AttemptStep)
    (dec : Option (String → Except String Out)) (opts : requestOptions)
    (c : ConditionFunc) (resp : Nat → Response) (k : Nat)
    (hc : opts.cond = some c)
    (ht : opts.timeout ≤ 0 ∨ (k : Int) * opts.interval ≤ opts.timeout)
    (hi : 0 < opts.interval)
    (henv : ∀ i, i < k → env i = AttemptStep.respond (resp i) none)
    (hok : ∀ i, i < k → (resp i).isError = false)
    (hdec : ∀ i, i < k → ∃ dv, decodeOut dec (resp i).body = Except.ok dv)
    (hcf : ∀ i, i < k → c (resp i) = false) :
    (∀ e fuel, env k = AttemptStep.fail e → k < fuel →
      doRun env dec opts fuel =
        some (DoResult.fail (GoError.transport e) (k + 1))) ∧
    (∀ r re fuel, env k = AttemptStep.respond r re → r.isError = true → k < fuel →
      doRun env dec opts fuel = some (DoResult.fail
        (GoError.es { StatusCode := r.statusCode, Message := r.stringRep }) (k + 1))) := by
  constructor
  · intro e fuel he hf
    exact doLoop_transport_error_reaches env dec opts c resp k e hc ht hi henv
      hok hdec hcf he fuel 0 false (by omega) (by omega)
  · intro r re fuel he hr hf
    exact doLoop_es_error_reaches env dec opts c resp k r re hc ht hi henv hok
      hdec hcf he hr fuel 0 false (by omega) (by omega)

/-- Witness for C3 at attempt 2 (`k = 1`): after a clean first attempt on
which the status-200 condition is false, the second attempt hits a refused
connection in one run and a 500 response in the other, each terminating with
exactly two attempts under the default one-minute timeout. -/
theorem c3_terminal_errors_not_retried_witness :
    doRun envFailAt1 (none : Option (String → Except String Unit)) optsCond200 2 =
      some (DoResult.fail (GoError.transport "connection refused") 2) ∧
    doRun envErrAt1 (none : Option (String → Except String Unit)) optsCond200 2 =
      some (DoResult.fail (GoError.es
        { StatusCode := 500, Message := "[500 Internal Server Error] oops" }) 2) :=
  ⟨(c3_terminal_errors_not_retried envFailAt1 none optsCond200 cond200
      (fun _ => respSlow) 1 rfl (Or.inr (by decide)) (by decide)
      (fun i hi2 => by have h : i = 0 := Nat.lt_one_iff.mp hi2; subst h; rfl)
      (fun i _ => rfl) (fun i _ => ⟨none, rfl⟩) (fun i _ => rfl)).1
      "connection refused" 2 rfl (by omega),
   (c3_terminal_errors_not_retried envErrAt1 none optsCond200 cond200
      (fun _ => respSlow) 1 rfl (Or.inr (by decide)) (by decide)
      (fun i hi2 => by have h : i = 0 := Nat.lt_one_iff.mp hi2; subst h; rfl)
      (fun i _ => rfl) (fun i _ => ⟨none, rfl⟩) (fun i _ => rfl)).2
      respErr none 2 rfl rfl (by omega)⟩

/-- C4: deadline semantics. A deadline-exceeded return from `Do` is possible
only when the resolved options carry a condition and a positive (finite)
timeout; it is checked only between attempts, so at least one attempt has
already completed when it fires (`1 ≤ n`, never before the first attempt),
the recorded attempt count `n` is final (no further attempt is started), and
the deadline had expired before the tick due after attempt `n`. -/
theorem c4_deadline_semantics {Out : Type} (env : Nat → AttemptStep)
    (dec : Option (String → Except String Out)) (opts : requestOptions)
    (fuel n : Nat)
    (h : doRun env dec opts fuel = some (DoResult.fail GoError.deadlineExceeded n)) :
    opts.cond.isSome = true ∧ 0 < opts.timeout ∧ 1 ≤ n ∧
      opts.timeout < (n : Int) * opts.interval := by
  obtain ⟨a, b, c2, d2, e⟩ := doLoop_deadline_inv env dec opts n fuel 0 false h
  exact ⟨a, b, by have := e rfl; omega, c2⟩

/-- Witness for C4: with a one-unit timeout and one-unit interval over a
never-true condition, `Do` hits the deadline after exactly two attempts. -/
theorem c4_deadline_semantics_witness :
    optsTight.cond.isSome = true ∧ 0 < optsTight.timeout ∧ 1 ≤ 2 ∧
      optsTight.timeout < (2 : Int) * optsTight.interval :=
  c4_deadline_semantics envOk (none : Option (String → Except String Unit))
    optsTight 3 2 rfl

/-- C5: body replay fidelity (the `bodyRepeater` is modelled from the spec,
its source file being outside src). For a request with a non-empty body sent
at least twice through one wrapper, the bytes delivered to the underlying
transport are byte-identical on every attempt — the captured body replayed
verbatim, so the logical request is immutable across attempts. -/
theorem c5_body_replay_fidelity (b : List Nat) (n : Nat) (_hb : b ≠ [])
    (hn : 2 ≤ n) :
    bodyRepeaterDeliveries none (some b) n = List.replicate n (some b) := by
  obtain ⟨k, rfl⟩ : ∃ k, n = k + 1 := ⟨n - 1, by omega⟩
  simp [bodyRepeaterDeliveries, bodyRepeaterSend,
    bodyRepeaterDeliveries_of_captured, List.replicate_succ]

/-- Witness for C5: three sends of the one-byte body `[42]`. -/
theorem c5_body_replay_fidelity_witness :
    bodyRepeaterDeliveries none (some [42]) 3 = List.replicate 3 (some [42]) :=
  c5_body_replay_fidelity [42] 3 (by decide) (by decide)

/-- C6: combinator semantics. `AllCondition` of the empty list is true on
every response; `AllCondition [f, g]` is true iff both `f` and `g` are true
on the same response; in general it is the conjunction of all supplied
conditions, evaluated in the given order; and the number of conditions the
loop invokes is the length of the leading all-true prefix plus one when a
false condition is hit — so a condition after the first false one is never
evaluated. -/
theorem c6_all_condition_semantics :
    (∀ r : Response, AllCondition [] r = true) ∧
    (∀ (f g : ConditionFunc) (r : Response),
      AllCondition [f, g] r = (f r && g r)) ∧
    (∀ (conds : List ConditionFunc) (r : Response),
      AllCondition conds r = conds.all (fun c => c r)) ∧
    (∀ (conds : List ConditionFunc) (r : Response),
      allCondEvalCount conds r =
        min conds.length ((conds.takeWhile (fun c => c r)).length + 1)) := by
  refine ⟨fun r => rfl, ?_, allCondLoop_all, allCondEvalCount_formula⟩
  intro f g r
  rcases Bool.eq_false_or_eq_true (f r) with hf | hf <;>
    rcases Bool.eq_false_or_eq_true (g r) with hg | hg <;>
      simp [AllCondition, allCondLoop, hf, hg]

/-- C7: a zero timeout with a condition is unbounded. `WithTimeout 0`
overrides the one-minute default, leaving timeout 0 in the resolved options;
with a condition present, a non-positive timeout and responses on which the
condition stays false, no deadline timer is armed and the loop never
terminates, whatever the fuel; and with a non-positive timeout `Do` can
never return the deadline-exceeded error at all. -/
theorem c7_zero_timeout_unbounded {Out : Type}
    (dec : Option (String → Except String Out)) :
    (∀ c : ConditionFunc, applyOpts [WithCondition c, WithTimeout 0] =
      { timeout := 0, interval := 100000000, cond := some c }) ∧
    (∀ (env : Nat → AttemptStep) (opts : requestOptions) (c : ConditionFunc),
      opts.cond = some c → opts.timeout ≤ 0 → 0 < opts.interval →
      (∀ i, ∃ r, env i = AttemptStep.respond r none ∧ r.isError = false ∧
        c r = false ∧ ∃ dv, decodeOut dec r.body = Except.ok dv) →
      ∀ fuel, doRun env dec opts fuel = none) ∧
    (∀ (env : Nat → AttemptStep) (opts : requestOptions) (fuel n : Nat),
      opts.timeout ≤ 0 →
      doRun env dec opts fuel ≠ some (DoResult.fail GoError.deadlineExceeded n)) := by
  refine ⟨fun c => rfl, ?_, ?_⟩
  · intro env opts c hc ht hi henv fuel
    exact doLoop_no_timeout_unbounded env dec opts c hc ht hi henv fuel 0 false
  · intro env opts fuel n ht h
    obtain ⟨-, hb, -, -, -⟩ := doLoop_deadline_inv env dec opts n fuel 0 false h
    omega

/-- Witness for C7: option resolution with an explicit zero timeout, a run
that is still going after 5 iterations, and a run that cannot have ended
with the deadline error. -/
theorem c7_zero_timeout_unbounded_witness :
    applyOpts [WithCondition condNever, WithTimeout 0] =
      { timeout := 0, interval := 100000000, cond := some condNever } ∧
    doRun envOk (none : Option (String → Except String Unit)) optsNoTimeout 5 =
      none ∧
    doRun envOk (none : Option (String → Except String Unit)) optsNoTimeout 7 ≠
      some (DoResult.fail GoError.deadlineExceeded 3) :=
  ⟨(c7_zero_timeout_unbounded
      (none : Option (String → Except String Unit))).1 condNever,
   (c7_zero_timeout_unbounded
      (none : Option (String → Except String Unit))).2.1 envOk optsNoTimeout
      condNever rfl (by decide) (by decide)
      (fun i => ⟨respOk, rfl, rfl, rfl, none, rfl⟩) 5,
   (c7_zero_timeout_unbounded
      (none : Option (String → Except String Unit))).2.2 envOk optsNoTimeout 7 3
      (by decide)⟩

/-- C8: no silent partial state. When `Do` returns success, the decoded
output it hands back is exactly the decode of the returned response's body:
absent when no output destination was supplied, and the successfully decoded
value of that body when one was — never a stale or partial value (every
error path instead returns an error with no response, by the shape of
`DoResult.fail`). -/
theorem c8_success_fully_decoded {Out : Type} (env : Nat → AttemptStep)
    (dec : Option (String → Except String Out)) (opts : requestOptions)
    (fuel : Nat) (r : Response) (d : Option Out) (n : Nat)
    (h : doRun env dec opts fuel = some (DoResult.ok r d n)) :
    decodeOut dec r.body = Except.ok d ∧
    (dec = none → d = none) ∧
    (∀ f, dec = some f → ∃ v, f r.body = Except.ok v ∧ d = some v) := by
  have hd := doLoop_ok_inv env dec opts r d n fuel 0 false h
  refine ⟨hd, ?_, ?_⟩
  · intro hnone
    rw [hnone] at hd
    simp only [decodeOut, Except.ok.injEq] at hd
    exact hd.symm
  · intro f hf
    rw [hf] at hd
    simp only [decodeOut] at hd
    cases hfb : f r.body with
    | error e => rw [hfb] at hd; simp [Except.map] at hd
    | ok v =>
      rw [hfb] at hd
      simp only [Except.map, Except.ok.injEq] at hd
      exact ⟨v, rfl, hd.symm⟩

/-- Witness for C8: a single clean attempt with an echo decoder populates
the output with the returned response's body. -/
theorem c8_success_fully_decoded_witness :
    decodeOut decEcho respHello.body = Except.ok (some "hello") ∧
    (decEcho = none → (some "hello" : Option String) = none) ∧
    (∀ f, decEcho = some f → ∃ v, f respHello.body = Except.ok v ∧
      (some "hello" : Option String) = some v) :=
  c8_success_fully_decoded envHello decEcho defaultRequestOptions 1 respHello
    (some "hello") 1 rfl

/-- C9: query-fragment builders. Every builder serializes to a single-key
object whose key names the query kind; a zero boost is omitted from
`TermQuery` and `TermsQuery` output; zero minimum-should-match and zero
boost are omitted from `BoolQuery` output; and the concrete example
`TermQuery` with field "status", value "ok" and boost 0 renders to exactly
the expected bytes, with no boost key. -/
theorem c9_query_fragment_builders :
    (∀ q : BoolQuery, ∃ b, q.toJson = encodeQueryJSON "bool" b) ∧
    (∀ q : ExistsQuery, ∃ b, q.toJson = encodeQueryJSON "exists" b) ∧
    (∀ q : TermQuery, ∃ b, q.toJson = encodeQueryJSON "term" b) ∧
    (∀ q : TermsQuery, ∃ b, q.toJson = encodeQueryJSON "terms" b) ∧
    (∀ q : MatchPhraseQuery, ∃ b, q.toJson = encodeQueryJSON "match_phrase" b) ∧
    (∀ f v, (TermQuery.mk f v 0).toJson =
      Json.obj [("term", Json.obj [(f, Json.obj [("value", v)])])]) ∧
    (∀ fi m mn s, (BoolQuery.mk fi m mn s 0 0).toJson = Json.obj [("bool", Json.obj (
      (if fi.isEmpty then [] else [("filter", Json.arr fi)]) ++
      (if m.isEmpty then [] else [("must", Json.arr m)]) ++
      (if mn.isEmpty then [] else [("must_not", Json.arr mn)]) ++
      (if s.isEmpty then [] else [("should", Json.arr s)])))]) ∧
    (∀ f vs, (TermsQuery.mk f vs 0).toJson =
      Json.obj [("terms", Json.obj [(f, Json.arr vs)])]) ∧
    (TermQuery.mk "status" (Json.str "ok") 0).MarshalJSON =
      "\x7b\"term\":\x7b\"status\":\x7b\"value\":\"ok\"\x7d\x7d\x7d" := by
  refine ⟨fun q => ⟨_, rfl⟩, fun q => ⟨_, rfl⟩, fun q => ⟨_, rfl⟩,
    fun q => ⟨_, rfl⟩, fun q => ⟨_, rfl⟩,
    fun f v => ?_, fun fi m mn s => ?_, fun f vs => ?_, ?_⟩
  · simp [TermQuery.toJson, encodeQueryJSON]
  · simp [BoolQuery.toJson, encodeQueryJSON]
  · simp [TermsQuery.toJson, encodeQueryJSON, sortFields, insertField]
  · rfl

/-- C10: interval positivity is an unchecked precondition. With a condition
whose first check fails on a clean first attempt and a non-positive resolved
interval, `Do` panics when starting the ticker (after exactly one attempt)
instead of returning an error; with a positive interval no run, whatever the
environment, fuel or options, can end in a panic. -/
theorem c10_interval_precondition {Out : Type}
    (dec : Option (String → Except String Out)) :
    (∀ (env : Nat → AttemptStep) (opts : requestOptions) (c : ConditionFunc)
        (r : Response) (dv : Option Out) (fuel : Nat),
      opts.cond = some c → opts.interval ≤ 0 → 1 ≤ fuel →
      env 0 = AttemptStep.respond r none → r.isError = false →
      decodeOut dec r.body = Except.ok dv → c r = false →
      doRun env dec opts fuel =
        some (DoResult.panicked "non-positive interval for NewTicker" 1)) ∧
    (∀ (env : Nat → AttemptStep) (opts : requestOptions) (fuel : Nat)
        (msg : String) (n : Nat), 0 < opts.interval →
      doRun env dec opts fuel ≠ some (DoResult.panicked msg n)) := by
  constructor
  · intro env opts c r dv fuel hc hi hf h0 he hdv hcr
    obtain ⟨f2, rfl⟩ : ∃ f2, fuel = f2 + 1 := ⟨fuel - 1, by omega⟩
    unfold doRun
    simp only [doLoop]
    rw [if_neg (by simp), h0]
    simp only [he, Bool.false_eq_true, if_false, hdv, hc, hcr]
    rw [if_pos hi]
  · intro env opts fuel msg n hi h
    obtain ⟨ha, -⟩ := doLoop_panic_inv env dec opts msg n fuel 0 false h
    omega

/-- Witness for C10: a zero interval panics on the first failed condition
check; the default options never panic. -/
theorem c10_interval_precondition_witness :
    doRun envOk (none : Option (String → Except String Unit)) optsZeroInterval 1 =
      some (DoResult.panicked "non-positive interval for NewTicker" 1) ∧
    doRun envOk (none : Option (String → Except String Unit))
        defaultRequestOptions 2 ≠
      some (DoResult.panicked "non-positive interval for NewTicker" 1) :=
  ⟨(c10_interval_precondition (none : Option (String → Except String Unit))).1
      envOk optsZeroInterval condNever respOk none 1 rfl (by decide) (by decide)
      rfl rfl rfl rfl,
   (c10_interval_precondition (none : Option (String → Except String Unit))).2
      envOk defaultRequestOptions 2 "non-positive interval for NewTicker" 1
      (by decide)⟩

end Espoll
